import Mathlib

/-!
Edge-detection bridge: `EdgeProcessor` and the JNI entry points.

A shallow embedding of `app/src/cpp/EdgeProcessor.cpp`, `jni/EdgeProcessor.h` and
`app/src/cpp/native-lib.cpp`.

* `double` values are never computed with by the program (they are stored, passed on and
  returned), so they are kept abstract: a type `D` with decimal literals.
* The OpenCV operations and the clock arithmetic are external; they are the fields of
  `Library`, arbitrary functions that may raise a `cv::Exception`.
* Every call into OpenCV is recorded in a call log, so that "which operations ran, in which
  order, with which arguments" can be stated.
* Android bitmaps live in a heap indexed by `jobject`; each bitmap counts the successful
  `AndroidBitmap_lockPixels` calls and the `AndroidBitmap_unlockPixels` calls made on it.
-/

namespace Flam

/-! ## OpenCV values -/

/-- Value of a raised `cv::Exception`. -/
structure CvException where
  code : Int
deriving DecidableEq, Repr

/-- A two-dimensional `cv::Mat` of depth `CV_8U`: `rows` and `cols` are C `int`s, the element
type is `CV_8UC(channels)`, `data` is the content of the pixel buffer the header views. -/
structure Mat where
  rows : Int
  cols : Int
  channels : Nat
  data : List Nat
deriving DecidableEq, Repr

/-- The default-constructed `cv::Mat()`: no rows, no columns, type `CV_8UC1`, no data. -/
def Mat.new : Mat := ⟨0, 0, 1, []⟩

/-- Method `cv::Mat::total()`. -/
def Mat.total (m : Mat) : Int := m.rows * m.cols

/-- Method `cv::Mat::empty()`: the header has no element (every header the program builds with
a non-zero total has a buffer). -/
def Mat.empty (m : Mat) : Bool := decide (m.total = 0)

/-- Method `cv::Mat::clone()`: a deep copy, equal in value to the original. -/
def Mat.clone (m : Mat) : Mat := ⟨m.rows, m.cols, m.channels, m.data⟩

/-- The `cv::ColorConversionCodes` the program uses. -/
inductive ColorConversionCode where
  | COLOR_RGBA2GRAY
  | COLOR_RGB2GRAY
  | COLOR_GRAY2RGBA
  | COLOR_RGB2RGBA
deriving DecidableEq, Repr

/-- The external functions: `cv::cvtColor`, `cv::GaussianBlur`, `cv::Canny` (each returns its
destination Mat or raises), and the conversion of a `high_resolution_clock` tick difference to
`std::chrono::duration<double, std::milli>(...).count()`. -/
structure Library (D : Type) where
  cvtColor : Mat → ColorConversionCode → Except CvException Mat
  GaussianBlur : Mat → Int × Int → D → Except CvException Mat
  Canny : Mat → D → D → Int → Except CvException Mat
  durationMs : Int → D

/-- One entry of the call log: an OpenCV operation with the arguments it was given. -/
inductive LibCall (D : Type) where
  | cvtColor (src : Mat) (code : ColorConversionCode)
  | GaussianBlur (src : Mat) (ksize : Int × Int) (sigma : D)
  | Canny (src : Mat) (threshold1 threshold2 : D) (apertureSize : Int)
deriving DecidableEq, Repr

/-! ## `EdgeProcessor` -/

/-- The mutable members of `class EdgeProcessor`. -/
structure EdgeProcessor (D : Type) where
  processingTime : D
  cannyThreshold1 : D
  cannyThreshold2 : D
deriving DecidableEq, Repr

/-- Member `const int cannyApertureSize = 3`. -/
def EdgeProcessor.cannyApertureSize : Int := 3

/-- Member `const int blurKernelSize = 5`. -/
def EdgeProcessor.blurKernelSize : Int := 5

/-- Member `const double blurSigma = 1.5`. -/
def EdgeProcessor.blurSigma {D : Type} [OfScientific D] : D := 1.5

/-- Constructor `EdgeProcessor::EdgeProcessor()`. -/
def EdgeProcessor.new {D : Type} [OfScientific D] : EdgeProcessor D :=
  { processingTime := 0.0, cannyThreshold1 := 50.0, cannyThreshold2 := 150.0 }

/-- What a call of `EdgeProcessor::processFrame` leaves behind: the returned Mat, the object
after the call, and the OpenCV calls made during the call, in order. -/
structure FrameResult (D : Type) where
  ret : Mat
  self : EdgeProcessor D
  calls : List (LibCall D)

/-- The grayscale step of `processFrame` (the `if`/`else if` chain on `channels()`): `none` when
the channel count is unsupported, otherwise the outcome of the conversion and the calls made. -/
def EdgeProcessor.grayStep {D : Type} (lib : Library D) (inputFrame : Mat) :
    Option (Except CvException Mat × List (LibCall D)) :=
  if inputFrame.channels = 4 then
    some (lib.cvtColor inputFrame .COLOR_RGBA2GRAY, [.cvtColor inputFrame .COLOR_RGBA2GRAY])
  else if inputFrame.channels = 3 then
    some (lib.cvtColor inputFrame .COLOR_RGB2GRAY, [.cvtColor inputFrame .COLOR_RGB2GRAY])
  else if inputFrame.channels = 1 then
    some (.ok inputFrame.clone, [])
  else
    none

/-- The method `EdgeProcessor::processFrame`. `start` and `stop` are the two readings of
`high_resolution_clock::now()` (the second one is only taken on the success path). Every
`cv::Exception` raised inside the `try` block is caught and turns into `return cv::Mat()`. -/
def EdgeProcessor.processFrame {D : Type} [OfScientific D] (lib : Library D)
    (self : EdgeProcessor D) (inputFrame : Mat) (start stop : Int) : FrameResult D :=
  if inputFrame.empty then
    ⟨Mat.new, self, []⟩
  else
    match EdgeProcessor.grayStep lib inputFrame with
    | none => ⟨Mat.new, self, []⟩
    | some (.error _, log0) => ⟨Mat.new, self, log0⟩
    | some (.ok gray, log0) =>
      let ksize := (EdgeProcessor.blurKernelSize, EdgeProcessor.blurKernelSize)
      let log1 := log0 ++ [LibCall.GaussianBlur gray ksize EdgeProcessor.blurSigma]
      match lib.GaussianBlur gray ksize EdgeProcessor.blurSigma with
      | .error _ => ⟨Mat.new, self, log1⟩
      | .ok blurred =>
        let log2 := log1 ++ [LibCall.Canny blurred self.cannyThreshold1 self.cannyThreshold2
          EdgeProcessor.cannyApertureSize]
        match lib.Canny blurred self.cannyThreshold1 self.cannyThreshold2
            EdgeProcessor.cannyApertureSize with
        | .error _ => ⟨Mat.new, self, log2⟩
        | .ok edges =>
          let log3 := log2 ++ [LibCall.cvtColor edges .COLOR_GRAY2RGBA]
          match lib.cvtColor edges .COLOR_GRAY2RGBA with
          | .error _ => ⟨Mat.new, self, log3⟩
          | .ok output =>
            ⟨output, { self with processingTime := lib.durationMs (stop - start) }, log3⟩

/-- The method `EdgeProcessor::getProcessingTime`. -/
def EdgeProcessor.getProcessingTime {D : Type} (self : EdgeProcessor D) : D :=
  self.processingTime

/-- The method `EdgeProcessor::setCannyThresholds`. -/
def EdgeProcessor.setCannyThresholds {D : Type} (self : EdgeProcessor D)
    (threshold1 threshold2 : D) : EdgeProcessor D :=
  { self with cannyThreshold1 := threshold1, cannyThreshold2 := threshold2 }

/-- Consecutive `processFrame` calls on one object, one per `(frame, start, stop)` entry, with
no `setCannyThresholds` call in between; the object after the last call. -/
def EdgeProcessor.processFrames {D : Type} [OfScientific D] (lib : Library D) :
    EdgeProcessor D → List (Mat × Int × Int) → EdgeProcessor D
  | self, [] => self
  | self, (frame, start, stop) :: rest =>
    EdgeProcessor.processFrames lib (self.processFrame lib frame start stop).self rest

/-- The failures of a `processFrame` call: the input frame is empty, its channel count is not
1, 3 or 4, or one of the OpenCV operations the call runs raises a `cv::Exception`. -/
inductive EdgeProcessor.Fails {D : Type} [OfScientific D] (lib : Library D)
    (self : EdgeProcessor D) (inputFrame : Mat) : Prop where
  | emptyFrame (h : inputFrame.empty = true)
  | badChannels (h1 : inputFrame.channels ≠ 1) (h3 : inputFrame.channels ≠ 3)
      (h4 : inputFrame.channels ≠ 4)
  | grayRaises (e : CvException) (log : List (LibCall D))
      (hg : EdgeProcessor.grayStep lib inputFrame = some (.error e, log))
  | blurRaises (gray : Mat) (log : List (LibCall D)) (e : CvException)
      (hg : EdgeProcessor.grayStep lib inputFrame = some (.ok gray, log))
      (hb : lib.GaussianBlur gray (5, 5) 1.5 = .error e)
  | cannyRaises (gray : Mat) (log : List (LibCall D)) (blurred : Mat) (e : CvException)
      (hg : EdgeProcessor.grayStep lib inputFrame = some (.ok gray, log))
      (hb : lib.GaussianBlur gray (5, 5) 1.5 = .ok blurred)
      (hc : lib.Canny blurred self.cannyThreshold1 self.cannyThreshold2 3 = .error e)
  | rgbaRaises (gray : Mat) (log : List (LibCall D)) (blurred edges : Mat) (e : CvException)
      (hg : EdgeProcessor.grayStep lib inputFrame = some (.ok gray, log))
      (hb : lib.GaussianBlur gray (5, 5) 1.5 = .ok blurred)
      (hc : lib.Canny blurred self.cannyThreshold1 self.cannyThreshold2 3 = .ok edges)
      (hr : lib.cvtColor edges .COLOR_GRAY2RGBA = .error e)

/-! ## Android bitmaps -/

/-- Values of `enum AndroidBitmapFormat` (`android/bitmap.h`). -/
inductive AndroidBitmapFormat where
  | NONE
  | RGBA_8888
  | RGB_565
  | RGBA_4444
  | A_8
deriving DecidableEq, Repr

/-- Bytes per pixel of a bitmap format. -/
def AndroidBitmapFormat.bytesPerPixel : AndroidBitmapFormat → Nat
  | .NONE => 0
  | .RGBA_8888 => 4
  | .RGB_565 => 2
  | .RGBA_4444 => 2
  | .A_8 => 1

/-- The fields of `AndroidBitmapInfo` the program reads (`width` and `height` are `uint32_t`). -/
structure AndroidBitmapInfo where
  width : Nat
  height : Nat
  format : AndroidBitmapFormat
deriving DecidableEq, Repr

/-- A bitmap object: its info, the content of its pixel buffer (rows tightly packed, as the
`cv::Mat(rows, cols, type, data)` constructor assumes), whether `AndroidBitmap_getInfo` and
`AndroidBitmap_lockPixels` succeed on it, and two counters: the successful
`AndroidBitmap_lockPixels` calls and the `AndroidBitmap_unlockPixels` calls made on it. -/
structure Bitmap where
  info : AndroidBitmapInfo
  pixels : List Nat
  infoOk : Bool
  lockOk : Bool
  locks : Nat
  unlocks : Nat
deriving DecidableEq, Repr

/-- A reference to a Java object. -/
abbrev jobject := Nat

/-- The bitmaps reachable through `JNIEnv*`, by reference. -/
abbrev Heap := jobject → Bitmap

/-- Replace the bitmap behind one reference. -/
def Heap.set (heap : Heap) (bitmap : jobject) (b : Bitmap) : Heap :=
  fun j => if j = bitmap then b else heap j

/-- Conversion of a `uint32_t` to `int` (`static_cast<int>`, and the implicit conversion at the
`cv::Mat(int, int, int, void*)` constructor): two's complement on 32 bits. -/
def toInt32 (n : Nat) : Int :=
  if n % 2 ^ 32 < 2 ^ 31 then ((n % 2 ^ 32 : Nat) : Int) else ((n % 2 ^ 32 : Nat) : Int) - 2 ^ 32

/-- Function `AndroidBitmap_getInfo`: the result code (negative on failure) and the info
written. -/
def AndroidBitmap_getInfo (heap : Heap) (bitmap : jobject) : Int × AndroidBitmapInfo :=
  if (heap bitmap).infoOk then (0, (heap bitmap).info) else (-1, ⟨0, 0, .NONE⟩)

/-- Function `AndroidBitmap_lockPixels`: the result code (negative on failure) and the heap, in
which a successful lock is counted. The address written to `pixels` is that of the bitmap's
buffer. -/
def AndroidBitmap_lockPixels (heap : Heap) (bitmap : jobject) : Int × Heap :=
  if (heap bitmap).lockOk then
    (0, heap.set bitmap { heap bitmap with locks := (heap bitmap).locks + 1 })
  else
    (-1, heap)

/-- Function `AndroidBitmap_unlockPixels`: the call is counted on the bitmap. -/
def AndroidBitmap_unlockPixels (heap : Heap) (bitmap : jobject) : Heap :=
  heap.set bitmap { heap bitmap with unlocks := (heap bitmap).unlocks + 1 }

/-- The helper `bitmapToMat`: the returned flag, the Mat behind the reference parameter `mat`
after the call, and the heap. The Mat built over `pixels` views the bitmap's buffer. -/
def bitmapToMat (heap : Heap) (bitmap : jobject) (mat : Mat) : Bool × Mat × Heap :=
  let (rc, info) := AndroidBitmap_getInfo heap bitmap
  if rc < 0 then (false, mat, heap)
  else
    let (rc2, heap1) := AndroidBitmap_lockPixels heap bitmap
    if rc2 < 0 then (false, mat, heap1)
    else if info.format = .RGBA_8888 then
      (true, ⟨toInt32 info.height, toInt32 info.width, 4, (heap1 bitmap).pixels⟩, heap1)
    else if info.format = .RGB_565 then
      (true, ⟨toInt32 info.height, toInt32 info.width, 2, (heap1 bitmap).pixels⟩, heap1)
    else
      (false, mat, AndroidBitmap_unlockPixels heap1 bitmap)

/-- What a call of `matToBitmap` leaves behind: the returned flag or the `cv::Exception` that
escaped, the heap, and the OpenCV calls made. -/
structure ToBitmapResult (D : Type) where
  ret : Except CvException Bool
  heap : Heap
  calls : List (LibCall D)

/-- The helper `matToBitmap`. `bitmapMat` is a `CV_8UC4` header over the locked buffer of the
bitmap's size, so `copyTo` and `cvtColor` write their result into the bitmap's pixels. -/
def matToBitmap {D : Type} (lib : Library D) (heap : Heap) (mat : Mat) (bitmap : jobject) :
    ToBitmapResult D :=
  let (rc, info) := AndroidBitmap_getInfo heap bitmap
  if rc < 0 then ⟨.ok false, heap, []⟩
  else
    let (rc2, heap1) := AndroidBitmap_lockPixels heap bitmap
    if rc2 < 0 then ⟨.ok false, heap1, []⟩
    else if mat.rows ≠ toInt32 info.height ∨ mat.cols ≠ toInt32 info.width then
      ⟨.ok false, AndroidBitmap_unlockPixels heap1 bitmap, []⟩
    else if info.format = .RGBA_8888 then
      if mat.channels = 4 then
        ⟨.ok true, heap1.set bitmap { heap1 bitmap with pixels := mat.data }, []⟩
      else
        match lib.cvtColor mat .COLOR_RGB2RGBA with
        | .ok converted =>
          ⟨.ok true, heap1.set bitmap { heap1 bitmap with pixels := converted.data },
            [.cvtColor mat .COLOR_RGB2RGBA]⟩
        | .error e => ⟨.error e, heap1, [.cvtColor mat .COLOR_RGB2RGBA]⟩
    else
      ⟨.ok false, AndroidBitmap_unlockPixels heap1 bitmap, []⟩

/-! ## JNI entry points -/

/-- The state the entry points work on: the global `g_processor` (`none` for `nullptr`), the
bitmaps, and the log of all OpenCV calls made so far. -/
structure World (D : Type) where
  g_processor : Option (EdgeProcessor D)
  heap : Heap
  calls : List (LibCall D)

/-- Entry point `NativeProcessor.initProcessor`. -/
def NativeProcessor_initProcessor {D : Type} [OfScientific D] (w : World D) : World D :=
  match w.g_processor with
  | none => { w with g_processor := some EdgeProcessor.new }
  | some _ => w

/-- Entry point `NativeProcessor.releaseProcessor`. -/
def NativeProcessor_releaseProcessor {D : Type} (w : World D) : World D :=
  match w.g_processor with
  | some _ => { w with g_processor := none }
  | none => w

/-- Entry point `NativeProcessor.processFrame`. The three `catch` clauses swallow whatever
escapes the `try` block, after which both bitmaps are unlocked. -/
def NativeProcessor_processFrame {D : Type} [OfScientific D] (lib : Library D) (w : World D)
    (bitmapIn bitmapOut : jobject) (applyEdgeDetection : Bool) (start stop : Int) : World D :=
  match w.g_processor with
  | none => w
  | some processor =>
    match bitmapToMat w.heap bitmapIn Mat.new with
    | (false, _, heap1) => { w with heap := AndroidBitmap_unlockPixels heap1 bitmapIn }
    | (true, inputMat, heap1) =>
      let r : FrameResult D :=
        if applyEdgeDetection then processor.processFrame lib inputMat start stop
        else ⟨inputMat.clone, processor, []⟩
      if r.ret.empty then
        { g_processor := some r.self
          heap := AndroidBitmap_unlockPixels heap1 bitmapIn
          calls := w.calls ++ r.calls }
      else
        let t : ToBitmapResult D := matToBitmap lib heap1 r.ret bitmapOut
        { g_processor := some r.self
          heap := AndroidBitmap_unlockPixels (AndroidBitmap_unlockPixels t.heap bitmapOut) bitmapIn
          calls := w.calls ++ r.calls ++ t.calls }

/-- Entry point `NativeProcessor.getProcessingTime`. -/
def NativeProcessor_getProcessingTime {D : Type} [OfScientific D] (w : World D) : D :=
  match w.g_processor with
  | some processor => processor.getProcessingTime
  | none => 0.0

/-- Entry point `NativeProcessor.setCannyThresholds`. -/
def NativeProcessor_setCannyThresholds {D : Type} (w : World D) (threshold1 threshold2 : D) :
    World D :=
  match w.g_processor with
  | some processor =>
    { w with g_processor := some (processor.setCannyThresholds threshold1 threshold2) }
  | none => w

/-! ## A concrete library -/

/-- A small stand-in for OpenCV, used to run the program on concrete inputs: `cvtColor` sets the
channel count of the destination and raises on a source whose channel count does not fit the
conversion code, `GaussianBlur` raises on a source that is not single-channel, `Canny` raises
on a source of 7 rows, both otherwise keep their source, and one clock tick lasts one
millisecond. -/
def demoLibrary : Library ℚ where
  cvtColor := fun src code =>
    match code with
    | .COLOR_RGBA2GRAY => if src.channels = 4 then .ok { src with channels := 1 } else .error ⟨-215⟩
    | .COLOR_RGB2GRAY => if src.channels = 3 then .ok { src with channels := 1 } else .error ⟨-215⟩
    | .COLOR_GRAY2RGBA => if src.channels = 1 then .ok { src with channels := 4 } else .error ⟨-215⟩
    | .COLOR_RGB2RGBA => if src.channels = 3 then .ok { src with channels := 4 } else .error ⟨-215⟩
  GaussianBlur := fun src _ _ => if src.channels = 1 then .ok src else .error ⟨-215⟩
  Canny := fun src _ _ _ => if src.rows = 7 then .error ⟨-215⟩ else .ok src
  durationMs := fun ticks => (ticks : ℚ)

/-- A 1x2 RGBA frame. -/
def rgbaFrame : Mat := ⟨1, 2, 4, [10, 20, 30, 255, 40, 50, 60, 255]⟩

/-- A 7x1 single-channel frame; `demoLibrary.Canny` raises on it. -/
def tallGrayFrame : Mat := ⟨7, 1, 1, [1, 2, 3, 4, 5, 6, 7]⟩

/-- A processor whose last successful call took 7 ms. -/
def usedProcessor : EdgeProcessor ℚ :=
  { processingTime := 7, cannyThreshold1 := 50, cannyThreshold2 := 150 }

/-- Dimensions as a Java `Bitmap` reports them: Java `int` values, so below `2^31`. -/
def AndroidBitmapInfo.fitsInt (info : AndroidBitmapInfo) : Prop :=
  info.width < 2 ^ 31 ∧ info.height < 2 ^ 31

/-- A well-formed bitmap: its dimensions fit an `int` and its buffer holds exactly
`height * width` pixels of its format. -/
def Bitmap.WellFormed (b : Bitmap) : Prop :=
  b.info.fitsInt ∧ b.pixels.length = b.info.height * b.info.width * b.info.format.bytesPerPixel

/-- A 1x2 bitmap of the given format and content on which both API calls succeed, never
locked so far. -/
def freshBitmap (format : AndroidBitmapFormat) (pixels : List Nat) : Bitmap :=
  { info := ⟨2, 1, format⟩, pixels := pixels, infoOk := true, lockOk := true,
    locks := 0, unlocks := 0 }

/-- A world with an initialized processor and two bitmaps: the input bitmap behind reference 0
and an RGBA_8888 output bitmap, all zero, behind every other reference. -/
def worldWith (input : Bitmap) : World ℚ :=
  { g_processor := some usedProcessor
    heap := fun j => if j = 0 then input else freshBitmap .RGBA_8888 [0, 0, 0, 0, 0, 0, 0, 0]
    calls := [] }

/-! ## Properties of `EdgeProcessor` -/

/-- A clone has the value of its original. -/
theorem Mat.clone_eq (m : Mat) : m.clone = m := rfl

section EdgeProcessorLemmas

variable {D : Type}

/-- Whatever happens, `processFrame` leaves the first threshold as it was. -/
theorem EdgeProcessor.processFrame_threshold1 [OfScientific D] (lib : Library D)
    (self : EdgeProcessor D)
    (inputFrame : Mat) (start stop : Int) :
    (self.processFrame lib inputFrame start stop).self.cannyThreshold1
      = self.cannyThreshold1 := by
  unfold EdgeProcessor.processFrame
  dsimp only
  repeat' split
  all_goals rfl

/-- Whatever happens, `processFrame` leaves the second threshold as it was. -/
theorem EdgeProcessor.processFrame_threshold2 [OfScientific D] (lib : Library D)
    (self : EdgeProcessor D)
    (inputFrame : Mat) (start stop : Int) :
    (self.processFrame lib inputFrame start stop).self.cannyThreshold2
      = self.cannyThreshold2 := by
  unfold EdgeProcessor.processFrame
  dsimp only
  repeat' split
  all_goals rfl

/-- A run of `processFrame` calls leaves both thresholds as they were. -/
theorem EdgeProcessor.processFrames_thresholds [OfScientific D] (lib : Library D)
    (frames : List (Mat × Int × Int)) (self : EdgeProcessor D) :
    (EdgeProcessor.processFrames lib self frames).cannyThreshold1 = self.cannyThreshold1 ∧
    (EdgeProcessor.processFrames lib self frames).cannyThreshold2 = self.cannyThreshold2 := by
  induction frames generalizing self with
  | nil => exact ⟨rfl, rfl⟩
  | cons head rest ih =>
    obtain ⟨frame, start, stop⟩ := head
    have h := ih (self.processFrame lib frame start stop).self
    rw [EdgeProcessor.processFrame_threshold1, EdgeProcessor.processFrame_threshold2] at h
    exact h

/-- The grayscale step never calls `cv::Canny`. -/
theorem EdgeProcessor.grayStep_no_canny (lib : Library D) (inputFrame : Mat)
    (res : Except CvException Mat) (log : List (LibCall D))
    (h : EdgeProcessor.grayStep lib inputFrame = some (res, log))
    (src : Mat) (t1 t2 : D) (ap : Int) : LibCall.Canny src t1 t2 ap ∉ log := by
  unfold EdgeProcessor.grayStep at h
  split_ifs at h <;> simp at h <;> obtain ⟨-, rfl⟩ := h <;> simp

/-- Every `cv::Canny` call made by `processFrame` gets the two thresholds of the object. -/
theorem EdgeProcessor.processFrame_canny_args [OfScientific D] (lib : Library D)
    (self : EdgeProcessor D)
    (inputFrame : Mat) (start stop : Int) (src : Mat) (t1 t2 : D) (ap : Int)
    (h : LibCall.Canny src t1 t2 ap ∈ (self.processFrame lib inputFrame start stop).calls) :
    t1 = self.cannyThreshold1 ∧ t2 = self.cannyThreshold2 := by
  unfold EdgeProcessor.processFrame at h
  dsimp only at h
  split at h
  · simp at h
  · split at h
    · simp at h
    · next e log0 hg =>
      exact absurd h (EdgeProcessor.grayStep_no_canny lib inputFrame _ log0 hg src t1 t2 ap)
    · next gray log0 hg =>
      have hno := EdgeProcessor.grayStep_no_canny lib inputFrame _ log0 hg src t1 t2 ap
      split at h
      · simp [hno] at h
      · split at h
        · simp [hno] at h
          exact ⟨h.2.1, h.2.2.1⟩
        · split at h
          · simp [hno] at h
            exact ⟨h.2.1, h.2.2.1⟩
          · simp [hno] at h
            exact ⟨h.2.1, h.2.2.1⟩

/-- Once the grayscale step and the blur have succeeded, `processFrame` calls `cv::Canny` on
the blurred image with the thresholds of the object and aperture 3. -/
theorem EdgeProcessor.processFrame_canny_called [OfScientific D] (lib : Library D)
    (self : EdgeProcessor D)
    (inputFrame : Mat) (start stop : Int) (gray blurred : Mat) (log : List (LibCall D))
    (hne : inputFrame.empty = false)
    (hg : EdgeProcessor.grayStep lib inputFrame = some (.ok gray, log))
    (hb : lib.GaussianBlur gray (5, 5) 1.5 = .ok blurred) :
    LibCall.Canny blurred self.cannyThreshold1 self.cannyThreshold2 3
      ∈ (self.processFrame lib inputFrame start stop).calls := by
  have hb2 : lib.GaussianBlur gray (EdgeProcessor.blurKernelSize, EdgeProcessor.blurKernelSize)
      EdgeProcessor.blurSigma = .ok blurred := hb
  unfold EdgeProcessor.processFrame
  simp only [hne, hg, hb2]
  repeat' split
  all_goals simp_all [EdgeProcessor.cannyApertureSize]

end EdgeProcessorLemmas

/-! ## The claims about `EdgeProcessor` -/

/-- C1: on a non-empty frame with 1, 3 or 4 channels, when the grayscale conversion (RGBA2GRAY
for 4 channels, RGB2GRAY for 3, a plain copy for 1), the 5x5 Gaussian blur with sigma 1.5, Canny
with the object's thresholds and aperture 3, and GRAY2RGBA all return, `processFrame` returns
exactly the GRAY2RGBA image of the Canny image of the blurred gray image; the OpenCV calls made
are the grayscale conversion (if any), then the blur, Canny and GRAY2RGBA, once each in that
order; and both thresholds are as before. -/
theorem processFrame_pipeline {D : Type} [OfScientific D] (lib : Library D)
    (self : EdgeProcessor D) (inputFrame : Mat) (start stop : Int)
    (gray blurred edges output : Mat)
    (hne : inputFrame.empty = false)
    (hch : inputFrame.channels = 1 ∨ inputFrame.channels = 3 ∨ inputFrame.channels = 4)
    (h4 : inputFrame.channels = 4 → lib.cvtColor inputFrame .COLOR_RGBA2GRAY = .ok gray)
    (h3 : inputFrame.channels = 3 → lib.cvtColor inputFrame .COLOR_RGB2GRAY = .ok gray)
    (h1 : inputFrame.channels = 1 → gray = inputFrame)
    (hblur : lib.GaussianBlur gray (5, 5) 1.5 = .ok blurred)
    (hcanny : lib.Canny blurred self.cannyThreshold1 self.cannyThreshold2 3 = .ok edges)
    (hrgba : lib.cvtColor edges .COLOR_GRAY2RGBA = .ok output) :
    (self.processFrame lib inputFrame start stop).ret = output ∧
    (self.processFrame lib inputFrame start stop).calls =
      (if inputFrame.channels = 1 then []
       else [LibCall.cvtColor inputFrame
          (if inputFrame.channels = 4 then .COLOR_RGBA2GRAY else .COLOR_RGB2GRAY)]) ++
      [LibCall.GaussianBlur gray (5, 5) 1.5,
       LibCall.Canny blurred self.cannyThreshold1 self.cannyThreshold2 3,
       LibCall.cvtColor edges .COLOR_GRAY2RGBA] ∧
    (self.processFrame lib inputFrame start stop).self.cannyThreshold1 = self.cannyThreshold1 ∧
    (self.processFrame lib inputFrame start stop).self.cannyThreshold2 = self.cannyThreshold2 := by
  have hb2 : lib.GaussianBlur gray (EdgeProcessor.blurKernelSize, EdgeProcessor.blurKernelSize)
      EdgeProcessor.blurSigma = .ok blurred := hblur
  have hc2 : lib.Canny blurred self.cannyThreshold1 self.cannyThreshold2
      EdgeProcessor.cannyApertureSize = .ok edges := hcanny
  have hg : EdgeProcessor.grayStep lib inputFrame =
      some (.ok gray, if inputFrame.channels = 1 then []
        else [LibCall.cvtColor inputFrame
          (if inputFrame.channels = 4 then .COLOR_RGBA2GRAY else .COLOR_RGB2GRAY)]) := by
    unfold EdgeProcessor.grayStep
    rcases hch with h | h | h
    · simp [h, h1 h, Mat.clone_eq]
    · simp [h, h3 h]
    · simp [h, h4 h]
  refine ⟨?_, ?_, EdgeProcessor.processFrame_threshold1 lib self inputFrame start stop,
    EdgeProcessor.processFrame_threshold2 lib self inputFrame start stop⟩
  · unfold EdgeProcessor.processFrame
    simp only [hne, hg, hb2, hc2, hrgba]
    simp
  · unfold EdgeProcessor.processFrame
    simp only [hne, hg, hb2, hc2, hrgba]
    simp [EdgeProcessor.blurKernelSize, EdgeProcessor.blurSigma, EdgeProcessor.cannyApertureSize]

/-- C7: when the input frame is empty, or its channel count is not 1, 3 or 4, or an OpenCV
operation of the call raises a `cv::Exception`, `processFrame` returns the empty `cv::Mat()`
(the exception is caught inside), and the object, both thresholds and the last
measured processing time, is exactly as before the call. -/
theorem processFrame_fails_atomically {D : Type} [OfScientific D] (lib : Library D)
    (self : EdgeProcessor D) (inputFrame : Mat) (start stop : Int)
    (hfail : EdgeProcessor.Fails lib self inputFrame) :
    (self.processFrame lib inputFrame start stop).ret = Mat.new ∧
    (self.processFrame lib inputFrame start stop).ret.empty = true ∧
    (self.processFrame lib inputFrame start stop).self = self := by
  have key : (self.processFrame lib inputFrame start stop).ret = Mat.new ∧
      (self.processFrame lib inputFrame start stop).self = self := by
    unfold EdgeProcessor.processFrame
    by_cases hemp : inputFrame.empty = true
    · simp [hemp]
    · cases hfail with
      | emptyFrame h => exact absurd h hemp
      | badChannels h1 h3 h4 =>
        simp [hemp, EdgeProcessor.grayStep, h1, h3, h4]
      | grayRaises e log hg => simp [hemp, hg]
      | blurRaises gray log e hg hb =>
        have hb2 : lib.GaussianBlur gray
            (EdgeProcessor.blurKernelSize, EdgeProcessor.blurKernelSize)
            EdgeProcessor.blurSigma = .error e := hb
        simp [hemp, hg, hb2]
      | cannyRaises gray log blurred e hg hb hc =>
        have hb2 : lib.GaussianBlur gray
            (EdgeProcessor.blurKernelSize, EdgeProcessor.blurKernelSize)
            EdgeProcessor.blurSigma = .ok blurred := hb
        have hc2 : lib.Canny blurred self.cannyThreshold1 self.cannyThreshold2
            EdgeProcessor.cannyApertureSize = .error e := hc
        simp [hemp, hg, hb2, hc2]
      | rgbaRaises gray log blurred edges e hg hb hc hr =>
        have hb2 : lib.GaussianBlur gray
            (EdgeProcessor.blurKernelSize, EdgeProcessor.blurKernelSize)
            EdgeProcessor.blurSigma = .ok blurred := hb
        have hc2 : lib.Canny blurred self.cannyThreshold1 self.cannyThreshold2
            EdgeProcessor.cannyApertureSize = .ok edges := hc
        simp [hemp, hg, hb2, hc2, hr]
  refine ⟨key.1, ?_, key.2⟩
  rw [key.1]
  rfl

/-- The pipeline theorem at work: a 1x2 RGBA frame through the concrete library. -/
theorem processFrame_pipeline_witness :
    ((EdgeProcessor.new : EdgeProcessor ℚ).processFrame demoLibrary rgbaFrame 100 105).ret
      = { rgbaFrame with channels := 4 } ∧
    ((EdgeProcessor.new : EdgeProcessor ℚ).processFrame demoLibrary rgbaFrame 100 105).calls
      = [LibCall.cvtColor rgbaFrame .COLOR_RGBA2GRAY,
         LibCall.GaussianBlur { rgbaFrame with channels := 1 } (5, 5) 1.5,
         LibCall.Canny { rgbaFrame with channels := 1 } 50.0 150.0 3,
         LibCall.cvtColor { rgbaFrame with channels := 1 } .COLOR_GRAY2RGBA] :=
  have h := processFrame_pipeline demoLibrary (EdgeProcessor.new : EdgeProcessor ℚ) rgbaFrame
    100 105 { rgbaFrame with channels := 1 } { rgbaFrame with channels := 1 }
    { rgbaFrame with channels := 1 } { rgbaFrame with channels := 4 }
    (by decide) (by decide) (fun _ => rfl) (fun h => absurd h (by decide))
    (fun h => absurd h (by decide)) rfl rfl rfl
  ⟨h.1, h.2.1⟩

/-- The atomic-failure theorem at work: Canny raises on the 7x1 frame. -/
theorem processFrame_fails_atomically_witness :
    (usedProcessor.processFrame demoLibrary tallGrayFrame 100 105).ret = Mat.new ∧
    (usedProcessor.processFrame demoLibrary tallGrayFrame 100 105).ret.empty = true ∧
    (usedProcessor.processFrame demoLibrary tallGrayFrame 100 105).self = usedProcessor :=
  processFrame_fails_atomically demoLibrary usedProcessor tallGrayFrame 100 105
    (EdgeProcessor.Fails.cannyRaises tallGrayFrame [] tallGrayFrame ⟨-215⟩ rfl rfl rfl)

/-- A failed `processFrame` call leaves the object exactly as it was. -/
theorem EdgeProcessor.processFrame_self_of_fails {D : Type} [OfScientific D] (lib : Library D)
    (self : EdgeProcessor D) (inputFrame : Mat) (start stop : Int)
    (hfail : EdgeProcessor.Fails lib self inputFrame) :
    (self.processFrame lib inputFrame start stop).self = self := by
  unfold EdgeProcessor.processFrame
  by_cases hemp : inputFrame.empty = true
  · simp [hemp]
  · cases hfail with
    | emptyFrame h => exact absurd h hemp
    | badChannels h1 h3 h4 =>
      simp [hemp, EdgeProcessor.grayStep, h1, h3, h4]
    | grayRaises e log hg => simp [hemp, hg]
    | blurRaises gray log e hg hb =>
      have hb2 : lib.GaussianBlur gray
          (EdgeProcessor.blurKernelSize, EdgeProcessor.blurKernelSize)
          EdgeProcessor.blurSigma = .error e := hb
      simp [hemp, hg, hb2]
    | cannyRaises gray log blurred e hg hb hc =>
      have hb2 : lib.GaussianBlur gray
          (EdgeProcessor.blurKernelSize, EdgeProcessor.blurKernelSize)
          EdgeProcessor.blurSigma = .ok blurred := hb
      have hc2 : lib.Canny blurred self.cannyThreshold1 self.cannyThreshold2
          EdgeProcessor.cannyApertureSize = .error e := hc
      simp [hemp, hg, hb2, hc2]
    | rgbaRaises gray log blurred edges e hg hb hc hr =>
      have hb2 : lib.GaussianBlur gray
          (EdgeProcessor.blurKernelSize, EdgeProcessor.blurKernelSize)
          EdgeProcessor.blurSigma = .ok blurred := hb
      have hc2 : lib.Canny blurred self.cannyThreshold1 self.cannyThreshold2
          EdgeProcessor.cannyApertureSize = .ok edges := hc
      simp [hemp, hg, hb2, hc2, hr]

/-- A `processFrame` call whose four steps all return records the duration between its two
clock readings. -/
theorem EdgeProcessor.processFrame_time_of_success {D : Type} [OfScientific D]
    (lib : Library D) (self : EdgeProcessor D) (inputFrame : Mat) (start stop : Int)
    (gray blurred edges output : Mat) (log : List (LibCall D))
    (hne : inputFrame.empty = false)
    (hg : EdgeProcessor.grayStep lib inputFrame = some (.ok gray, log))
    (hb : lib.GaussianBlur gray (5, 5) 1.5 = .ok blurred)
    (hc : lib.Canny blurred self.cannyThreshold1 self.cannyThreshold2 3 = .ok edges)
    (hr : lib.cvtColor edges .COLOR_GRAY2RGBA = .ok output) :
    (self.processFrame lib inputFrame start stop).self.getProcessingTime
      = lib.durationMs (stop - start) := by
  have hb2 : lib.GaussianBlur gray (EdgeProcessor.blurKernelSize, EdgeProcessor.blurKernelSize)
      EdgeProcessor.blurSigma = .ok blurred := hb
  have hc2 : lib.Canny blurred self.cannyThreshold1 self.cannyThreshold2
      EdgeProcessor.cannyApertureSize = .ok edges := hc
  unfold EdgeProcessor.processFrame EdgeProcessor.getProcessingTime
  simp only [hne, hg, hb2, hc2, hr]
  simp

/-- Every `processFrame` call either fails or has all four of its steps return. -/
theorem EdgeProcessor.fails_or_succeeds {D : Type} [OfScientific D] (lib : Library D)
    (self : EdgeProcessor D) (inputFrame : Mat) :
    EdgeProcessor.Fails lib self inputFrame ∨
    ∃ gray log blurred edges output, inputFrame.empty = false ∧
      EdgeProcessor.grayStep lib inputFrame = some (.ok gray, log) ∧
      lib.GaussianBlur gray (5, 5) 1.5 = .ok blurred ∧
      lib.Canny blurred self.cannyThreshold1 self.cannyThreshold2 3 = .ok edges ∧
      lib.cvtColor edges .COLOR_GRAY2RGBA = .ok output := by
  cases hemp : inputFrame.empty
  swap
  · exact Or.inl (.emptyFrame hemp)
  cases hg : EdgeProcessor.grayStep lib inputFrame with
  | none =>
    left
    unfold EdgeProcessor.grayStep at hg
    split_ifs at hg with h4 h3 h1
    exact .badChannels h1 h3 h4
  | some res =>
    obtain ⟨outcome, log⟩ := res
    cases outcome with
    | error e => exact Or.inl (.grayRaises e log hg)
    | ok gray =>
      cases hb : lib.GaussianBlur gray (5, 5) 1.5 with
      | error e => exact Or.inl (.blurRaises gray log e hg hb)
      | ok blurred =>
        cases hc : lib.Canny blurred self.cannyThreshold1 self.cannyThreshold2 3 with
        | error e => exact Or.inl (.cannyRaises gray log blurred e hg hb hc)
        | ok edges =>
          cases hr : lib.cvtColor edges .COLOR_GRAY2RGBA with
          | error e => exact Or.inl (.rgbaRaises gray log blurred edges e hg hb hc hr)
          | ok output => exact Or.inr ⟨gray, log, blurred, edges, output, rfl, rfl, hb, hc, hr⟩

/-- C3 as stated fails: after a `processFrame` call that fails (here on the empty frame, between
clock readings 100 and 105, one tick being one millisecond), `getProcessingTime` still returns
the 7 ms of the earlier call, not the 5 ms of this one. -/
theorem getProcessingTime_stale_after_failed_call :
    (usedProcessor.processFrame demoLibrary Mat.new 100 105).self.getProcessingTime = 7 ∧
    demoLibrary.durationMs (105 - 100) = 5 ∧
    (usedProcessor.processFrame demoLibrary Mat.new 100 105).self.getProcessingTime
      ≠ demoLibrary.durationMs (105 - 100) := by
  have h1 : (usedProcessor.processFrame demoLibrary Mat.new 100 105).self.getProcessingTime
      = 7 := rfl
  have h2 : demoLibrary.durationMs (105 - 100) = 5 := by
    simp [demoLibrary]
  refine ⟨h1, h2, ?_⟩
  rw [h1, h2]
  norm_num

/-- C3, as the code has it: `getProcessingTime` returns the last measured duration. Every
`processFrame` call either fails (empty frame, channel count not 1, 3 or 4, or a
`cv::Exception` from one of its OpenCV operations) or has all its steps return; after a call
whose steps all return, `getProcessingTime` returns the duration in milliseconds between the
clock reading at the call's start and the one before its return; after a call that fails no
duration is measured and `getProcessingTime` returns what it returned before the call. -/
theorem getProcessingTime_last_measured {D : Type} [OfScientific D] (lib : Library D)
    (self : EdgeProcessor D) (inputFrame : Mat) (start stop : Int) :
    (EdgeProcessor.Fails lib self inputFrame ∨
      ∃ gray log blurred edges output, inputFrame.empty = false ∧
        EdgeProcessor.grayStep lib inputFrame = some (.ok gray, log) ∧
        lib.GaussianBlur gray (5, 5) 1.5 = .ok blurred ∧
        lib.Canny blurred self.cannyThreshold1 self.cannyThreshold2 3 = .ok edges ∧
        lib.cvtColor edges .COLOR_GRAY2RGBA = .ok output) ∧
    (∀ gray log blurred edges output, inputFrame.empty = false →
      EdgeProcessor.grayStep lib inputFrame = some (.ok gray, log) →
      lib.GaussianBlur gray (5, 5) 1.5 = .ok blurred →
      lib.Canny blurred self.cannyThreshold1 self.cannyThreshold2 3 = .ok edges →
      lib.cvtColor edges .COLOR_GRAY2RGBA = .ok output →
      (self.processFrame lib inputFrame start stop).self.getProcessingTime
        = lib.durationMs (stop - start)) ∧
    (EdgeProcessor.Fails lib self inputFrame →
      (self.processFrame lib inputFrame start stop).self.getProcessingTime
        = self.getProcessingTime) := by
  refine ⟨EdgeProcessor.fails_or_succeeds lib self inputFrame, ?_, ?_⟩
  · intro gray log blurred edges output hne hg hb hc hr
    exact EdgeProcessor.processFrame_time_of_success lib self inputFrame start stop
      gray blurred edges output log hne hg hb hc hr
  · intro hfail
    rw [EdgeProcessor.processFrame_self_of_fails lib self inputFrame start stop hfail]

/-- The last-measured-duration theorem at work: a successful call between clock readings 100
and 105 records 5 ms, and a call on which Canny raises keeps the earlier 7 ms. -/
theorem getProcessingTime_last_measured_witness :
    (usedProcessor.processFrame demoLibrary rgbaFrame 100 105).self.getProcessingTime = 5 ∧
    (usedProcessor.processFrame demoLibrary tallGrayFrame 100 105).self.getProcessingTime
      = 7 := by
  have hs := (getProcessingTime_last_measured demoLibrary usedProcessor rgbaFrame 100 105).2.1
    { rgbaFrame with channels := 1 } [LibCall.cvtColor rgbaFrame .COLOR_RGBA2GRAY]
    { rgbaFrame with channels := 1 } { rgbaFrame with channels := 1 }
    { rgbaFrame with channels := 4 } (by decide) rfl rfl rfl rfl
  have hf := (getProcessingTime_last_measured demoLibrary usedProcessor tallGrayFrame
    100 105).2.2
    (EdgeProcessor.Fails.cannyRaises tallGrayFrame [] tallGrayFrame ⟨-215⟩ rfl rfl rfl)
  have h5 : demoLibrary.durationMs (105 - 100) = 5 := by
    simp [demoLibrary]
  exact ⟨hs.trans h5, hf⟩

/-- C4: `setCannyThresholds a b` stores `a` and `b` as they are, whatever their values, and
leaves the processing time alone; after any run of `processFrame` calls the thresholds are
still `a` and `b`, every `cv::Canny` call of a further `processFrame` call gets exactly `a` and
`b`, and that call is made as soon as the grayscale step and the blur have succeeded. -/
theorem setCannyThresholds_spec {D : Type} [OfScientific D] (lib : Library D)
    (self : EdgeProcessor D) (a b : D) (frames : List (Mat × Int × Int)) (frame : Mat)
    (start stop : Int) :
    (self.setCannyThresholds a b).cannyThreshold1 = a ∧
    (self.setCannyThresholds a b).cannyThreshold2 = b ∧
    (self.setCannyThresholds a b).getProcessingTime = self.getProcessingTime ∧
    (EdgeProcessor.processFrames lib (self.setCannyThresholds a b) frames).cannyThreshold1 = a ∧
    (EdgeProcessor.processFrames lib (self.setCannyThresholds a b) frames).cannyThreshold2 = b ∧
    (∀ src t1 t2 ap, LibCall.Canny src t1 t2 ap ∈
        ((EdgeProcessor.processFrames lib (self.setCannyThresholds a b) frames).processFrame
          lib frame start stop).calls → t1 = a ∧ t2 = b) ∧
    (∀ gray log blurred, frame.empty = false →
        EdgeProcessor.grayStep lib frame = some (.ok gray, log) →
        lib.GaussianBlur gray (5, 5) 1.5 = .ok blurred →
        LibCall.Canny blurred a b 3 ∈
          ((EdgeProcessor.processFrames lib (self.setCannyThresholds a b) frames).processFrame
            lib frame start stop).calls) := by
  have hk := EdgeProcessor.processFrames_thresholds lib frames (self.setCannyThresholds a b)
  have ha : (EdgeProcessor.processFrames lib (self.setCannyThresholds a b) frames).cannyThreshold1
      = a := hk.1
  have hb : (EdgeProcessor.processFrames lib (self.setCannyThresholds a b) frames).cannyThreshold2
      = b := hk.2
  refine ⟨rfl, rfl, rfl, ha, hb, ?_, ?_⟩
  · intro src t1 t2 ap hmem
    have h := EdgeProcessor.processFrame_canny_args lib _ frame start stop src t1 t2 ap hmem
    rw [ha, hb] at h
    exact h
  · intro gray log blurred hne hg hblur
    have h := EdgeProcessor.processFrame_canny_called lib
      (EdgeProcessor.processFrames lib (self.setCannyThresholds a b) frames)
      frame start stop gray blurred log hne hg hblur
    rw [ha, hb] at h
    exact h

/-- The threshold theorem at work: thresholds 90 and -3 (first above second, second negative)
are stored as given and reach Canny after an intermediate failed call. -/
theorem setCannyThresholds_spec_witness :
    (usedProcessor.setCannyThresholds 90 (-3)).cannyThreshold1 = 90 ∧
    (usedProcessor.setCannyThresholds 90 (-3)).cannyThreshold2 = -3 ∧
    LibCall.Canny { rgbaFrame with channels := 1 } 90 (-3) 3 ∈
      ((EdgeProcessor.processFrames demoLibrary (usedProcessor.setCannyThresholds 90 (-3))
        [(tallGrayFrame, 0, 1)]).processFrame demoLibrary rgbaFrame 100 105).calls :=
  have h := setCannyThresholds_spec demoLibrary usedProcessor 90 (-3) [(tallGrayFrame, 0, 1)]
    rgbaFrame 100 105
  ⟨h.1, h.2.1, h.2.2.2.2.2.2 { rgbaFrame with channels := 1 }
    [LibCall.cvtColor rgbaFrame .COLOR_RGBA2GRAY] { rgbaFrame with channels := 1 }
    (by decide) rfl rfl⟩

/-- C5: a newly constructed `EdgeProcessor` has thresholds 50 and 150 and processing time 0;
`initProcessor` installs such an object when there is none, in particular after
`releaseProcessor`; and as long as `setCannyThresholds` is not called, every `cv::Canny` call of
a `processFrame` call gets 50 and 150 (and is made once the grayscale step and the blur have
succeeded). -/
theorem new_processor_defaults {D : Type} [OfScientific D] (lib : Library D) (w : World D)
    (frames : List (Mat × Int × Int)) (frame : Mat) (start stop : Int) :
    (EdgeProcessor.new : EdgeProcessor D).cannyThreshold1 = 50.0 ∧
    (EdgeProcessor.new : EdgeProcessor D).cannyThreshold2 = 150.0 ∧
    (EdgeProcessor.new : EdgeProcessor D).getProcessingTime = 0.0 ∧
    (NativeProcessor_initProcessor { w with g_processor := none }).g_processor
      = some EdgeProcessor.new ∧
    (NativeProcessor_initProcessor (NativeProcessor_releaseProcessor w)).g_processor
      = some EdgeProcessor.new ∧
    (∀ src t1 t2 ap, LibCall.Canny src t1 t2 ap ∈
        ((EdgeProcessor.processFrames lib EdgeProcessor.new frames).processFrame
          lib frame start stop).calls → t1 = 50.0 ∧ t2 = 150.0) ∧
    (∀ gray log blurred, frame.empty = false →
        EdgeProcessor.grayStep lib frame = some (.ok gray, log) →
        lib.GaussianBlur gray (5, 5) 1.5 = .ok blurred →
        LibCall.Canny blurred 50.0 150.0 3 ∈
          ((EdgeProcessor.processFrames lib EdgeProcessor.new frames).processFrame
            lib frame start stop).calls) := by
  have hk := EdgeProcessor.processFrames_thresholds lib frames (EdgeProcessor.new : EdgeProcessor D)
  have ha : (EdgeProcessor.processFrames lib (EdgeProcessor.new : EdgeProcessor D)
      frames).cannyThreshold1 = 50.0 := hk.1
  have hb : (EdgeProcessor.processFrames lib (EdgeProcessor.new : EdgeProcessor D)
      frames).cannyThreshold2 = 150.0 := hk.2
  refine ⟨rfl, rfl, rfl, rfl, ?_, ?_, ?_⟩
  · unfold NativeProcessor_releaseProcessor NativeProcessor_initProcessor
    cases hw : w.g_processor <;> simp [hw]
  · intro src t1 t2 ap hmem
    have h := EdgeProcessor.processFrame_canny_args lib _ frame start stop src t1 t2 ap hmem
    rw [ha, hb] at h
    exact h
  · intro gray log blurred hne hg hblur
    have h := EdgeProcessor.processFrame_canny_called lib
      (EdgeProcessor.processFrames lib EdgeProcessor.new frames)
      frame start stop gray blurred log hne hg hblur
    rw [ha, hb] at h
    exact h

/-- The defaults theorem at work, with rational numbers for `double`: the values are 50, 150
and 0, and the first frame of a fresh processor reaches Canny with 50 and 150. -/
theorem new_processor_defaults_witness :
    (EdgeProcessor.new : EdgeProcessor ℚ).cannyThreshold1 = 50 ∧
    (EdgeProcessor.new : EdgeProcessor ℚ).cannyThreshold2 = 150 ∧
    (EdgeProcessor.new : EdgeProcessor ℚ).getProcessingTime = 0 ∧
    LibCall.Canny { rgbaFrame with channels := 1 } 50 150 3 ∈
      ((EdgeProcessor.new : EdgeProcessor ℚ).processFrame demoLibrary rgbaFrame 100 105).calls := by
  have h := new_processor_defaults demoLibrary (⟨none, fun _ => ⟨⟨0, 0, .NONE⟩, [], true, true, 0, 0⟩, []⟩ : World ℚ)
    [] rgbaFrame 100 105
  have e50 : (50.0 : ℚ) = 50 := by norm_num
  have e150 : (150.0 : ℚ) = 150 := by norm_num
  have e0 : (0.0 : ℚ) = 0 := by norm_num
  have hc := h.2.2.2.2.2.2 { rgbaFrame with channels := 1 }
    [LibCall.cvtColor rgbaFrame .COLOR_RGBA2GRAY] { rgbaFrame with channels := 1 }
    (by decide) rfl rfl
  rw [e50, e150] at hc
  exact ⟨h.1.trans e50, h.2.1.trans e150, h.2.2.1.trans e0, hc⟩

/-! ## Properties of the bitmap helpers -/

/-- On a dimension below `2^31` the conversion to `int` changes nothing. -/
theorem toInt32_of_lt (n : Nat) (h : n < 2 ^ 31) : toInt32 n = (n : Int) := by
  unfold toInt32
  have h2 : n % 2 ^ 32 = n := Nat.mod_eq_of_lt (by omega)
  rw [h2, if_pos h]

/-- Reading back the reference that was set. -/
theorem Heap.set_same (heap : Heap) (j : jobject) (b : Bitmap) : (heap.set j b) j = b := by
  simp [Heap.set]

/-- Reading another reference than the one that was set. -/
theorem Heap.set_other (heap : Heap) (j k : jobject) (b : Bitmap) (h : k ≠ j) :
    (heap.set j b) k = heap k := by
  simp [Heap.set, h]

/-- Function `AndroidBitmap_unlockPixels` only moves the unlock counter of its bitmap. -/
theorem AndroidBitmap_unlockPixels_frame (heap : Heap) (j k : jobject) :
    (AndroidBitmap_unlockPixels heap j k).pixels = (heap k).pixels ∧
    (AndroidBitmap_unlockPixels heap j k).info = (heap k).info ∧
    (AndroidBitmap_unlockPixels heap j k).infoOk = (heap k).infoOk ∧
    (AndroidBitmap_unlockPixels heap j k).lockOk = (heap k).lockOk ∧
    (AndroidBitmap_unlockPixels heap j k).locks = (heap k).locks := by
  unfold AndroidBitmap_unlockPixels Heap.set
  by_cases h : k = j
  · subst h
    simp
  · simp [h]

/-- Function `AndroidBitmap_lockPixels` only moves the lock counter of its bitmap. -/
theorem AndroidBitmap_lockPixels_frame (heap : Heap) (j k : jobject) :
    ((AndroidBitmap_lockPixels heap j).2 k).pixels = (heap k).pixels ∧
    ((AndroidBitmap_lockPixels heap j).2 k).info = (heap k).info ∧
    ((AndroidBitmap_lockPixels heap j).2 k).infoOk = (heap k).infoOk ∧
    ((AndroidBitmap_lockPixels heap j).2 k).lockOk = (heap k).lockOk ∧
    ((AndroidBitmap_lockPixels heap j).2 k).unlocks = (heap k).unlocks := by
  unfold AndroidBitmap_lockPixels Heap.set
  by_cases hl : (heap j).lockOk = true
  · by_cases h : k = j
    · subst h
      simp [hl]
    · simp [hl, h]
  · simp [hl]

/-- Function `AndroidBitmap_getInfo` fails exactly on the bitmaps marked so, and otherwise writes the
bitmap's info. -/
theorem AndroidBitmap_getInfo_spec (heap : Heap) (j : jobject) :
    ((AndroidBitmap_getInfo heap j).1 < 0 ↔ (heap j).infoOk = false) ∧
    ((heap j).infoOk = true → (AndroidBitmap_getInfo heap j).2 = (heap j).info) := by
  unfold AndroidBitmap_getInfo
  cases h : (heap j).infoOk <;> simp

/-- Function `AndroidBitmap_lockPixels` fails exactly on the bitmaps marked so, and then leaves the heap
as it is. -/
theorem AndroidBitmap_lockPixels_spec (heap : Heap) (j : jobject) :
    ((AndroidBitmap_lockPixels heap j).1 < 0 ↔ (heap j).lockOk = false) ∧
    ((heap j).lockOk = false → (AndroidBitmap_lockPixels heap j).2 = heap) := by
  unfold AndroidBitmap_lockPixels
  cases h : (heap j).lockOk <;> simp

/-- C8: `matToBitmap` on a bitmap whose dimensions fit an `int`. If the Mat's rows or columns
differ from the bitmap's height or width, or the bitmap's format is not RGBA_8888, it returns
false and no pixel of any bitmap has changed. It returns true only when the dimensions match
and the format is RGBA_8888, and then, for a 4-channel Mat, the bitmap's pixels are the Mat's
data. -/
theorem matToBitmap_spec {D : Type} (lib : Library D) (heap : Heap) (mat : Mat)
    (bitmap : jobject) (hfit : (heap bitmap).info.fitsInt) :
    ((mat.rows ≠ ((heap bitmap).info.height : Int) ∨ mat.cols ≠ ((heap bitmap).info.width : Int) ∨
        (heap bitmap).info.format ≠ .RGBA_8888) →
      (matToBitmap lib heap mat bitmap).ret = .ok false ∧
      ∀ j, ((matToBitmap lib heap mat bitmap).heap j).pixels = (heap j).pixels) ∧
    ((matToBitmap lib heap mat bitmap).ret = .ok true →
      mat.rows = ((heap bitmap).info.height : Int) ∧ mat.cols = ((heap bitmap).info.width : Int) ∧
      (heap bitmap).info.format = .RGBA_8888 ∧
      (mat.channels = 4 → ((matToBitmap lib heap mat bitmap).heap bitmap).pixels = mat.data)) := by
  obtain ⟨hw, hh⟩ := hfit
  have ew := toInt32_of_lt _ hw
  have eh := toInt32_of_lt _ hh
  have hgs := AndroidBitmap_getInfo_spec heap bitmap
  have hls := AndroidBitmap_lockPixels_spec heap bitmap
  have hlf := fun k => (AndroidBitmap_lockPixels_frame heap bitmap k).1
  unfold matToBitmap
  rcases hgi : AndroidBitmap_getInfo heap bitmap with ⟨rc, info⟩
  rcases hlk : AndroidBitmap_lockPixels heap bitmap with ⟨rc2, heap1⟩
  rw [hgi] at hgs
  rw [hlk] at hls hlf
  simp only at hgs hls hlf ⊢
  by_cases hrc : rc < 0
  · simp [hrc]
  · have hinfo : info = (heap bitmap).info := by
      apply hgs.2
      cases hflag : (heap bitmap).infoOk
      · exact absurd (hgs.1.2 hflag) hrc
      · rfl
    subst hinfo
    simp only [hrc, if_false]
    by_cases hrc2 : rc2 < 0
    · have hh1 : heap1 = heap := hls.2 (hls.1.1 hrc2)
      simp [hrc2, hh1]
    · simp only [hrc2, if_false, eh, ew]
      by_cases hd : mat.rows ≠ ((heap bitmap).info.height : Int) ∨
          mat.cols ≠ ((heap bitmap).info.width : Int)
      · simp only [hd, if_true]
        refine ⟨fun _ => ⟨trivial, fun j => ?_⟩, fun h => by simp at h⟩
        rw [(AndroidBitmap_unlockPixels_frame heap1 bitmap j).1, hlf]
      · have hd2 := hd
        push_neg at hd2
        simp only [hd, if_false]
        by_cases hf : (heap bitmap).info.format = .RGBA_8888
        · simp only [hf, if_true]
          by_cases hc : mat.channels = 4
          · simp [hc, hd2.1, hd2.2, Heap.set_same]
          · simp only [hc, if_false]
            cases hcv : lib.cvtColor mat .COLOR_RGB2RGBA <;> simp [hd2.1, hd2.2, hc]
        · simp only [hf, if_false]
          refine ⟨fun h => ⟨trivial, fun j => ?_⟩, fun h => by simp at h⟩
          rw [(AndroidBitmap_unlockPixels_frame heap1 bitmap j).1, hlf]

/-- The matToBitmap theorem at work: a matching 4-channel Mat lands in the output bitmap. -/
theorem matToBitmap_spec_witness :
    ((matToBitmap demoLibrary (worldWith (freshBitmap .RGBA_8888 [])).heap rgbaFrame 1).heap
      1).pixels = [10, 20, 30, 255, 40, 50, 60, 255] :=
  (matToBitmap_spec demoLibrary (worldWith (freshBitmap .RGBA_8888 [])).heap rgbaFrame 1
    ⟨by decide, by decide⟩).2 rfl |>.2.2.2 rfl

/-- On an RGBA_8888 bitmap on which both API calls succeed, `bitmapToMat` returns true with a
4-channel Mat over the bitmap's pixels, and the bitmap is locked. -/
theorem bitmapToMat_rgba (heap : Heap) (bitmap : jobject) (mat : Mat)
    (hi : (heap bitmap).infoOk = true) (hl : (heap bitmap).lockOk = true)
    (hf : (heap bitmap).info.format = .RGBA_8888) :
    bitmapToMat heap bitmap mat =
      (true, ⟨toInt32 (heap bitmap).info.height, toInt32 (heap bitmap).info.width, 4,
        (heap bitmap).pixels⟩, (AndroidBitmap_lockPixels heap bitmap).2) := by
  have hp := (AndroidBitmap_lockPixels_frame heap bitmap bitmap).1
  unfold bitmapToMat
  unfold AndroidBitmap_getInfo
  rcases hlk : AndroidBitmap_lockPixels heap bitmap with ⟨rc2, heap1⟩
  have h0 : rc2 = 0 := by
    have : (AndroidBitmap_lockPixels heap bitmap).1 = 0 := by
      simp [AndroidBitmap_lockPixels, hl]
    rw [hlk] at this
    exact this
  rw [hlk] at hp
  simp only at hp
  simp [hi, h0, hf, hp]

/-- On an RGBA_8888 bitmap on which both API calls succeed, `matToBitmap` of a 4-channel
Mat of the bitmap's dimensions returns true, having copied the Mat's data into the locked
bitmap without any OpenCV call. -/
theorem matToBitmap_copy {D : Type} (lib : Library D) (heap : Heap) (mat : Mat)
    (bitmap : jobject) (hi : (heap bitmap).infoOk = true) (hl : (heap bitmap).lockOk = true)
    (hf : (heap bitmap).info.format = .RGBA_8888)
    (hr : mat.rows = toInt32 (heap bitmap).info.height)
    (hc : mat.cols = toInt32 (heap bitmap).info.width) (hch : mat.channels = 4) :
    matToBitmap lib heap mat bitmap =
      ⟨.ok true, (AndroidBitmap_lockPixels heap bitmap).2.set bitmap
        { (AndroidBitmap_lockPixels heap bitmap).2 bitmap with pixels := mat.data }, []⟩ := by
  unfold matToBitmap
  unfold AndroidBitmap_getInfo
  rcases hlk : AndroidBitmap_lockPixels heap bitmap with ⟨rc2, heap1⟩
  have h0 : rc2 = 0 := by
    have : (AndroidBitmap_lockPixels heap bitmap).1 = 0 := by
      simp [AndroidBitmap_lockPixels, hl]
    rw [hlk] at this
    exact this
  simp [hi, h0, hf, hr, hc, hch]

/-- A well-formed bitmap without rows or without columns has no pixel data. -/
theorem Bitmap.WellFormed.pixels_nil (b : Bitmap) (hwf : b.WellFormed)
    (h : toInt32 b.info.height * toInt32 b.info.width = 0) : b.pixels = [] := by
  obtain ⟨⟨hw, hh⟩, hlen⟩ := hwf
  rw [toInt32_of_lt _ hw, toInt32_of_lt _ hh] at h
  have h2 : b.info.height * b.info.width = 0 := by exact_mod_cast h
  rw [h2, Nat.zero_mul] at hlen
  exact List.length_eq_zero.mp hlen

/-- When `AndroidBitmap_getInfo` or `AndroidBitmap_lockPixels` fails on a bitmap,
`bitmapToMat` returns false and leaves the Mat and the heap as they were. -/
theorem bitmapToMat_api_failure (heap : Heap) (bitmap : jobject) (mat : Mat)
    (h : (heap bitmap).infoOk = false ∨ (heap bitmap).lockOk = false) :
    bitmapToMat heap bitmap mat = (false, mat, heap) := by
  unfold bitmapToMat AndroidBitmap_getInfo AndroidBitmap_lockPixels
  cases hi : (heap bitmap).infoOk
  · simp
  · cases hl : (heap bitmap).lockOk
    · simp
    · rcases h with h | h
      · rw [hi] at h
        exact absurd h (by decide)
      · rw [hl] at h
        exact absurd h (by decide)

/-- The entry point on an input bitmap on which `AndroidBitmap_getInfo` or
`AndroidBitmap_lockPixels` fails, in either mode: it returns early, no pixel of any bitmap is
written, no OpenCV call is made and the processor is as before. -/
theorem NativeProcessor_processFrame_input_api_failure {D : Type} [OfScientific D]
    (lib : Library D) (w : World D) (processor : EdgeProcessor D)
    (bitmapIn bitmapOut : jobject) (applyEdgeDetection : Bool) (start stop : Int)
    (hproc : w.g_processor = some processor)
    (h : (w.heap bitmapIn).infoOk = false ∨ (w.heap bitmapIn).lockOk = false) :
    (∀ j, ((NativeProcessor_processFrame lib w bitmapIn bitmapOut applyEdgeDetection
        start stop).heap j).pixels = (w.heap j).pixels) ∧
    (NativeProcessor_processFrame lib w bitmapIn bitmapOut applyEdgeDetection
        start stop).calls = w.calls ∧
    (NativeProcessor_processFrame lib w bitmapIn bitmapOut applyEdgeDetection
        start stop).g_processor = some processor := by
  have hb := bitmapToMat_api_failure w.heap bitmapIn Mat.new h
  unfold NativeProcessor_processFrame
  simp only [hproc, hb]
  refine ⟨fun j => ?_, trivial, trivial⟩
  exact (AndroidBitmap_unlockPixels_frame w.heap bitmapIn j).1

/-- The entry point in pass-through mode on RGBA_8888 bitmaps of equal dimensions on which all
API calls succeed: the output receives the input's pixels, nothing else changes. -/
theorem NativeProcessor_processFrame_copies {D : Type} [OfScientific D] (lib : Library D)
    (w : World D) (processor : EdgeProcessor D) (bitmapIn bitmapOut : jobject)
    (start stop : Int)
    (hproc : w.g_processor = some processor)
    (hfIn : (w.heap bitmapIn).info.format = .RGBA_8888)
    (hfOut : (w.heap bitmapOut).info.format = .RGBA_8888)
    (hwidth : (w.heap bitmapOut).info.width = (w.heap bitmapIn).info.width)
    (hheight : (w.heap bitmapOut).info.height = (w.heap bitmapIn).info.height)
    (hiIn : (w.heap bitmapIn).infoOk = true) (hlIn : (w.heap bitmapIn).lockOk = true)
    (hiOut : (w.heap bitmapOut).infoOk = true) (hlOut : (w.heap bitmapOut).lockOk = true)
    (hwfIn : (w.heap bitmapIn).WellFormed) (hwfOut : (w.heap bitmapOut).WellFormed) :
    ((NativeProcessor_processFrame lib w bitmapIn bitmapOut false start stop).heap
        bitmapOut).pixels = (w.heap bitmapIn).pixels ∧
    ((NativeProcessor_processFrame lib w bitmapIn bitmapOut false start stop).heap
        bitmapIn).pixels = (w.heap bitmapIn).pixels ∧
    (NativeProcessor_processFrame lib w bitmapIn bitmapOut false start stop).calls = w.calls ∧
    (NativeProcessor_processFrame lib w bitmapIn bitmapOut false start stop).g_processor
      = some processor := by
  have hb := bitmapToMat_rgba w.heap bitmapIn Mat.new hiIn hlIn hfIn
  have hfr := fun k => AndroidBitmap_lockPixels_frame w.heap bitmapIn k
  unfold NativeProcessor_processFrame
  simp only [hproc, hb]
  generalize (AndroidBitmap_lockPixels w.heap bitmapIn).2 = heap1 at hfr ⊢
  by_cases hemp : (Mat.clone ⟨toInt32 (w.heap bitmapIn).info.height,
      toInt32 (w.heap bitmapIn).info.width, 4, (w.heap bitmapIn).pixels⟩).empty = true
  · have htot : toInt32 (w.heap bitmapIn).info.height * toInt32 (w.heap bitmapIn).info.width
        = 0 := by
      simpa [Mat.empty, Mat.total, Mat.clone] using hemp
    have hinNil := Bitmap.WellFormed.pixels_nil _ hwfIn htot
    have houtNil := Bitmap.WellFormed.pixels_nil _ hwfOut (by rw [hwidth, hheight]; exact htot)
    simp only [hemp, Bool.false_eq_true, if_false, if_true]
    refine ⟨?_, ?_, by simp, trivial⟩
    · rw [(AndroidBitmap_unlockPixels_frame heap1 bitmapIn bitmapOut).1, (hfr bitmapOut).1,
        houtNil, hinNil]
    · rw [(AndroidBitmap_unlockPixels_frame heap1 bitmapIn bitmapIn).1, (hfr bitmapIn).1]
  · have hm := matToBitmap_copy lib heap1 (Mat.clone ⟨toInt32 (w.heap bitmapIn).info.height,
        toInt32 (w.heap bitmapIn).info.width, 4, (w.heap bitmapIn).pixels⟩) bitmapOut
      (by rw [(hfr bitmapOut).2.2.1]; exact hiOut)
      (by rw [(hfr bitmapOut).2.2.2.1]; exact hlOut)
      (by rw [(hfr bitmapOut).2.1]; exact hfOut)
      (by rw [(hfr bitmapOut).2.1, hheight]; rfl)
      (by rw [(hfr bitmapOut).2.1, hwidth]; rfl) rfl
    have hfr2 := fun k => AndroidBitmap_lockPixels_frame heap1 bitmapOut k
    simp only [hemp, Bool.false_eq_true, if_false, hm]
    generalize (AndroidBitmap_lockPixels heap1 bitmapOut).2 = heap2 at hfr2 ⊢
    refine ⟨?_, ?_, by simp, trivial⟩
    · rw [(AndroidBitmap_unlockPixels_frame _ bitmapIn bitmapOut).1,
        (AndroidBitmap_unlockPixels_frame _ bitmapOut bitmapOut).1, Heap.set_same]
      rfl
    · rw [(AndroidBitmap_unlockPixels_frame _ bitmapIn bitmapIn).1,
        (AndroidBitmap_unlockPixels_frame _ bitmapOut bitmapIn).1]
      by_cases hal : bitmapIn = bitmapOut
      · subst hal
        rw [Heap.set_same]
        rfl
      · rw [Heap.set_other _ _ _ _ hal, (hfr2 bitmapIn).1, (hfr bitmapIn).1]

/-- C2, as the code has it: with an initialized processor, a well-formed RGBA_8888 input bitmap
and a well-formed RGBA_8888 output bitmap of the same width and height, `processFrame` with
`applyEdgeDetection = false` does the following. If `AndroidBitmap_getInfo` and
`AndroidBitmap_lockPixels` succeed on both bitmaps, the output bitmap's pixels become the input
bitmap's pixels, no OpenCV call is made, and the input bitmap's pixels and the processor
(thresholds and last duration) are unchanged. If `AndroidBitmap_getInfo` or
`AndroidBitmap_lockPixels` fails on the input bitmap, the entry point returns early: no pixel of
any bitmap is written, no OpenCV call is made and the processor is unchanged. -/
theorem processFrame_passthrough {D : Type} [OfScientific D] (lib : Library D) (w : World D)
    (processor : EdgeProcessor D) (bitmapIn bitmapOut : jobject) (start stop : Int)
    (hproc : w.g_processor = some processor)
    (hfIn : (w.heap bitmapIn).info.format = .RGBA_8888)
    (hfOut : (w.heap bitmapOut).info.format = .RGBA_8888)
    (hwidth : (w.heap bitmapOut).info.width = (w.heap bitmapIn).info.width)
    (hheight : (w.heap bitmapOut).info.height = (w.heap bitmapIn).info.height)
    (hwfIn : (w.heap bitmapIn).WellFormed) (hwfOut : (w.heap bitmapOut).WellFormed) :
    ((w.heap bitmapIn).infoOk = true ∧ (w.heap bitmapIn).lockOk = true ∧
      (w.heap bitmapOut).infoOk = true ∧ (w.heap bitmapOut).lockOk = true →
      ((NativeProcessor_processFrame lib w bitmapIn bitmapOut false start stop).heap
          bitmapOut).pixels = (w.heap bitmapIn).pixels ∧
      ((NativeProcessor_processFrame lib w bitmapIn bitmapOut false start stop).heap
          bitmapIn).pixels = (w.heap bitmapIn).pixels ∧
      (NativeProcessor_processFrame lib w bitmapIn bitmapOut false start stop).calls
        = w.calls ∧
      (NativeProcessor_processFrame lib w bitmapIn bitmapOut false start stop).g_processor
        = some processor) ∧
    ((w.heap bitmapIn).infoOk = false ∨ (w.heap bitmapIn).lockOk = false →
      (∀ j, ((NativeProcessor_processFrame lib w bitmapIn bitmapOut false start stop).heap
          j).pixels = (w.heap j).pixels) ∧
      (NativeProcessor_processFrame lib w bitmapIn bitmapOut false start stop).calls
        = w.calls ∧
      (NativeProcessor_processFrame lib w bitmapIn bitmapOut false start stop).g_processor
        = some processor) := by
  constructor
  · rintro ⟨hiIn, hlIn, hiOut, hlOut⟩
    exact NativeProcessor_processFrame_copies lib w processor bitmapIn bitmapOut start stop
      hproc hfIn hfOut hwidth hheight hiIn hlIn hiOut hlOut hwfIn hwfOut
  · intro hfail
    exact NativeProcessor_processFrame_input_api_failure lib w processor bitmapIn bitmapOut
      false start stop hproc hfail

/-- The pass-through theorem at work: the eight bytes of the input bitmap reach the output
bitmap when the API calls succeed, and the all-zero output bitmap stays as it is when
`AndroidBitmap_getInfo` fails on the input bitmap. -/
theorem processFrame_passthrough_witness :
    ((NativeProcessor_processFrame demoLibrary
        (worldWith (freshBitmap .RGBA_8888 [1, 2, 3, 4, 5, 6, 7, 8])) 0 1 false 100 105).heap
      1).pixels = [1, 2, 3, 4, 5, 6, 7, 8] ∧
    ((NativeProcessor_processFrame demoLibrary
        (worldWith { freshBitmap .RGBA_8888 [1, 2, 3, 4, 5, 6, 7, 8] with infoOk := false })
        0 1 false 100 105).heap 1).pixels = [0, 0, 0, 0, 0, 0, 0, 0] :=
  ⟨((processFrame_passthrough demoLibrary
      (worldWith (freshBitmap .RGBA_8888 [1, 2, 3, 4, 5, 6, 7, 8])) usedProcessor 0 1 100 105
      rfl rfl rfl rfl rfl
      ⟨⟨by decide, by decide⟩, by decide⟩ ⟨⟨by decide, by decide⟩, by decide⟩).1
      ⟨rfl, rfl, rfl, rfl⟩).1,
   ((processFrame_passthrough demoLibrary
      (worldWith { freshBitmap .RGBA_8888 [1, 2, 3, 4, 5, 6, 7, 8] with infoOk := false })
      usedProcessor 0 1 100 105 rfl rfl rfl rfl rfl
      ⟨⟨by decide, by decide⟩, by decide⟩ ⟨⟨by decide, by decide⟩, by decide⟩).2
      (Or.inl rfl)).1 1⟩

/-- C2 as stated fails: with an initialized processor, an RGBA_8888 input bitmap and an
RGBA_8888 output bitmap of the same width and height, when `AndroidBitmap_lockPixels` fails on
the input bitmap the call returns early and the output pixels, all zero, are not the input
pixels. -/
theorem processFrame_passthrough_lock_failure :
    (worldWith { freshBitmap .RGBA_8888 [1, 2, 3, 4, 5, 6, 7, 8] with lockOk := false }).g_processor
      = some usedProcessor ∧
    ((worldWith { freshBitmap .RGBA_8888 [1, 2, 3, 4, 5, 6, 7, 8] with lockOk := false }).heap
      0).info = ⟨2, 1, .RGBA_8888⟩ ∧
    ((worldWith { freshBitmap .RGBA_8888 [1, 2, 3, 4, 5, 6, 7, 8] with lockOk := false }).heap
      1).info = ⟨2, 1, .RGBA_8888⟩ ∧
    ((NativeProcessor_processFrame demoLibrary
        (worldWith { freshBitmap .RGBA_8888 [1, 2, 3, 4, 5, 6, 7, 8] with lockOk := false })
        0 1 false 100 105).heap 1).pixels = [0, 0, 0, 0, 0, 0, 0, 0] ∧
    ((NativeProcessor_processFrame demoLibrary
        (worldWith { freshBitmap .RGBA_8888 [1, 2, 3, 4, 5, 6, 7, 8] with lockOk := false })
        0 1 false 100 105).heap 1).pixels ≠
      ((worldWith { freshBitmap .RGBA_8888 [1, 2, 3, 4, 5, 6, 7, 8] with lockOk := false }).heap
        0).pixels := by
  refine ⟨rfl, rfl, rfl, rfl, ?_⟩
  decide

/-- C6, on the code: an RGB_565 input bitmap, which `bitmapToMat` accepts as a 2-channel Mat,
with `applyEdgeDetection = true`. Whatever OpenCV does, `EdgeProcessor::processFrame` rejects
the 2-channel Mat, the entry point returns on the empty result, and the output bitmap is
exactly as before: never locked, no pixel written, and no OpenCV operation has run. -/
theorem processFrame_rgb565_writes_nothing (lib : Library ℚ) (start stop : Int) :
    (bitmapToMat (worldWith (freshBitmap .RGB_565 [1, 2, 3, 4])).heap 0 Mat.new).1 = true ∧
    (NativeProcessor_processFrame lib (worldWith (freshBitmap .RGB_565 [1, 2, 3, 4]))
        0 1 true start stop).heap 1 = freshBitmap .RGBA_8888 [0, 0, 0, 0, 0, 0, 0, 0] ∧
    (NativeProcessor_processFrame lib (worldWith (freshBitmap .RGB_565 [1, 2, 3, 4]))
        0 1 true start stop).calls = [] :=
  ⟨rfl, rfl, rfl⟩

/-- C9, on the code: lock and unlock counts after one call of the entry point. With an input
bitmap of an unsupported format (A_8), `bitmapToMat` locks it once and unlocks it, and the entry
point unlocks it again: one lock, two unlocks. With an input bitmap on which
`AndroidBitmap_getInfo` fails, the bitmap is never locked and yet unlocked once. With a 1x1
input and a 2x1 output in pass-through mode, `matToBitmap` locks the output, unlocks it on the
dimension mismatch, and the entry point unlocks it again: one lock, two unlocks. -/
theorem processFrame_unbalanced_unlock (lib : Library ℚ) (applyEdgeDetection : Bool)
    (start stop : Int) :
    ((NativeProcessor_processFrame lib (worldWith (freshBitmap .A_8 [1, 2]))
        0 1 applyEdgeDetection start stop).heap 0).locks = 1 ∧
    ((NativeProcessor_processFrame lib (worldWith (freshBitmap .A_8 [1, 2]))
        0 1 applyEdgeDetection start stop).heap 0).unlocks = 2 ∧
    ((NativeProcessor_processFrame lib
        (worldWith { freshBitmap .RGBA_8888 [1, 2, 3, 4, 5, 6, 7, 8] with infoOk := false })
        0 1 applyEdgeDetection start stop).heap 0).locks = 0 ∧
    ((NativeProcessor_processFrame lib
        (worldWith { freshBitmap .RGBA_8888 [1, 2, 3, 4, 5, 6, 7, 8] with infoOk := false })
        0 1 applyEdgeDetection start stop).heap 0).unlocks = 1 ∧
    ((NativeProcessor_processFrame lib
        (worldWith { freshBitmap .RGBA_8888 [1, 2, 3, 4] with info := ⟨1, 1, .RGBA_8888⟩ })
        0 1 false start stop).heap 1).locks = 1 ∧
    ((NativeProcessor_processFrame lib
        (worldWith { freshBitmap .RGBA_8888 [1, 2, 3, 4] with info := ⟨1, 1, .RGBA_8888⟩ })
        0 1 false start stop).heap 1).unlocks = 2 :=
  ⟨rfl, rfl, rfl, rfl, rfl, rfl⟩

end Flam
